import Mathlib

/-!
Verification of the kikuboshopmachine point-of-sale backend.

The development shallowly embeds the Python/Django code of the repository:
model methods and serializer methods become pure Lean functions, the
database becomes explicit state (lists of rows / finite maps) passed in and
out, `Decimal` arithmetic becomes exact rational arithmetic (`ℚ`), and code
paths that raise become `Except` / `Option` results.
-/

/- ============================================================
   Data model: `pos_app/models.py`
   ============================================================ -/

/-- `Store` (`pos_app/models.py`): only the fields the verified code reads. -/
structure Store where
  tax_rate : ℚ
  is_active : Bool
  deriving Repr, DecidableEq

/-- `Role` (`pos_app/models.py`): `name` is one of the `ROLE_CHOICES` keys. -/
structure Role where
  name : String
  display_name : String
  deriving Repr, DecidableEq

/-- `Role.ROLE_CHOICES` from `pos_app/models.py`. -/
def ROLE_CHOICES : List (String × String) :=
  [("salesperson", "Salesperson"), ("owner", "Store Owner"), ("manager", "Store Manager")]

/-- `InvoiceItem` (`pos_app/models.py`): quantity, unit price and stored line
total.  `DecimalField` values are embedded as exact rationals. -/
structure InvoiceItem where
  quantity : ℤ
  price : ℚ
  total : ℚ
  deriving Repr, DecidableEq

/-- `Invoice` (`pos_app/models.py`): the fields read or written by
`calculate_totals`, plus the owning store. -/
structure Invoice where
  store : Store
  items : List InvoiceItem
  subtotal : ℚ
  tax : ℚ
  discount : ℚ
  total : ℚ
  deriving Repr, DecidableEq

/-- `InvoiceItem.save` (`pos_app/models.py`): recomputes `total = quantity * price`
before the row is written. -/
def InvoiceItem.save (it : InvoiceItem) : InvoiceItem :=
  { it with total := (it.quantity : ℚ) * it.price }

/-- `Invoice.calculate_totals` (`pos_app/models.py`): recalculates
`subtotal`, `tax` and `total` from the line items and the store tax rate. -/
def Invoice.calculate_totals (inv : Invoice) : Invoice :=
  let subtotal := (inv.items.map (·.total)).sum
  let tax := subtotal * inv.store.tax_rate
  { inv with subtotal := subtotal, tax := tax, total := subtotal + tax - inv.discount }

/- ============================================================
   Permissions: `pos_app/permissions.py`
   ============================================================ -/

/-- The authenticated principal as the permission classes see it
(`request.user`).  `role` and `store` are nullable foreign keys on the user
model (`authentication/models.py`), hence `Option`. -/
structure User where
  is_authenticated : Bool
  role : Option Role
  store : Option Store
  deriving Repr, DecidableEq

/-- `CanViewReports.has_permission` (`pos_app/permissions.py`).
`none` models the `AttributeError` the code raises when it dereferences
`request.user.role.name` while `role` is NULL. -/
def CanViewReports.has_permission (u : User) : Option Bool :=
  if !u.is_authenticated then some false
  else
    match u.role with
    | none => none
    | some r => some (r.name == "owner" || r.name == "manager")

/-- `CanCreateInvoice.has_permission` (`pos_app/permissions.py`): requires an
active store, then a role in `['salesperson', 'owner', 'manager']`. -/
def CanCreateInvoice.has_permission (u : User) : Option Bool :=
  if !u.is_authenticated then some false
  else
    match u.store with
    | none => some false
    | some s =>
      if !s.is_active then some false
      else
        match u.role with
        | none => none
        | some r => some (r.name == "salesperson" || r.name == "owner" || r.name == "manager")

/- ============================================================
   Transaction serializers: `pos_app/serializers.py`
   (`TransactionItemSerializer`, `TransactionSerializer`)
   ============================================================ -/

/-- The `Product` row of the schema `pos_app/serializers.py` works against:
the fields read by `TransactionItemSerializer.validate` and written by
`TransactionSerializer.create`. -/
structure SProduct where
  id : Nat
  name : String
  sku : String
  retail_price : ℚ
  wholesale_price : ℚ
  quantity_in_stock : ℤ
  deriving Repr, DecidableEq

/-- `TransactionItem.price_type` choices. -/
inductive PriceType where
  | RETAIL
  | WHOLESALE
  deriving Repr, DecidableEq

/-- A transaction item as submitted by the client: a product primary key,
a quantity and a price type. -/
structure RawItem where
  product : Nat
  quantity : ℤ
  price_type : PriceType
  deriving Repr, DecidableEq

/-- A transaction payload as submitted by the client (the writable fields of
`TransactionSerializer`). -/
structure RawTransaction where
  items : List RawItem
  discount : ℚ
  amount_paid : ℚ
  deriving Repr, DecidableEq

/-- The validation errors the serializers raise (`serializers.ValidationError`
messages, with their interpolated data). -/
inductive SError where
  | productDoesNotExist (pk : Nat)
  | productRequired
  | quantityNotPositive
  | insufficientStock (name : String) (available requested : ℤ)
  | noItems
  | negativeDiscount
  | discountExceedsSubtotal
  | negativeAmountPaid
  | cannotModify
  deriving Repr, DecidableEq

/-- An item after DRF field resolution: the `product` primary key has been
replaced by a freshly fetched model instance (`PrimaryKeyRelatedField` runs
`queryset.get(pk=...)` once per item, so each item holds its own snapshot of
the row). -/
structure FetchedItem where
  product : SProduct
  quantity : ℤ
  price_type : PriceType
  deriving Repr, DecidableEq

/-- An item after `TransactionItemSerializer.validate`: product details and
the unit price have been filled in. -/
structure ValidItem where
  product : SProduct
  quantity : ℤ
  product_name : String
  product_sku : String
  unit_price : ℚ
  price_type : PriceType
  deriving Repr, DecidableEq

/-- `Product.objects.get(pk=...)`: the first row with the given primary key. -/
def findProduct (db : List SProduct) (pk : Nat) : Option SProduct :=
  db.find? (·.id == pk)

/-- DRF field resolution for the nested `items` list: each item's `product`
primary key is looked up in the database; a missing key fails validation. -/
def resolveItems (db : List SProduct) : List RawItem → Except SError (List FetchedItem)
  | [] => .ok []
  | r :: rs =>
    match findProduct db r.product with
    | none => .error (.productDoesNotExist r.product)
    | some p =>
      match resolveItems db rs with
      | .error e => .error e
      | .ok rest =>
        .ok ({ product := p, quantity := r.quantity, price_type := r.price_type } :: rest)

/-- `TransactionItemSerializer.validate` (`pos_app/serializers.py`): rejects a
non-positive quantity, then a quantity above the product's current
`quantity_in_stock`; on success fills in `product_name`, `product_sku` and the
`unit_price` selected by `price_type`.  (The `if not product` guard is
discharged by field resolution, which already rejected missing products.) -/
def TransactionItemSerializer.validate (d : FetchedItem) : Except SError ValidItem :=
  if d.quantity ≤ 0 then .error .quantityNotPositive
  else if d.product.quantity_in_stock < d.quantity then
    .error (.insufficientStock d.product.name d.product.quantity_in_stock d.quantity)
  else
    .ok { product := d.product
          quantity := d.quantity
          product_name := d.product.name
          product_sku := d.product.sku
          unit_price :=
            match d.price_type with
            | .WHOLESALE => d.product.wholesale_price
            | .RETAIL => d.product.retail_price
          price_type := d.price_type }

/-- Child validation of the nested `items = TransactionItemSerializer(many=True)`
field: every item must pass `TransactionItemSerializer.validate`. -/
def validateItems : List FetchedItem → Except SError (List ValidItem)
  | [] => .ok []
  | d :: ds =>
    match TransactionItemSerializer.validate d with
    | .error e => .error e
    | .ok v =>
      match validateItems ds with
      | .error e => .error e
      | .ok vs => .ok (v :: vs)

/-- `TransactionSerializer.validate` (`pos_app/serializers.py`): at least one
item, non-negative discount not exceeding the expected subtotal, non-negative
amount paid. -/
def TransactionSerializer.validate (discount amount_paid : ℚ) (items : List ValidItem) :
    Except SError Unit :=
  if items.isEmpty then .error .noItems
  else if discount < 0 then .error .negativeDiscount
  else
    let expected_subtotal := (items.map (fun it => (it.quantity : ℚ) * it.unit_price)).sum
    if expected_subtotal < discount then .error .discountExceedsSubtotal
    else if amount_paid < 0 then .error .negativeAmountPaid
    else .ok ()

/-- The stored transaction produced by `TransactionSerializer.create`. -/
structure STransaction where
  subtotal : ℚ
  discount : ℚ
  total_amount : ℚ
  amount_paid : ℚ
  items : List ValidItem
  deriving Repr, DecidableEq

/-- `product.save()`: Django writes every field of the in-memory instance back
to the row with the same primary key (`UPDATE ... WHERE pk = ...`). -/
def saveProduct (db : List SProduct) (row : SProduct) : List SProduct :=
  db.map (fun r => if r.id == row.id then row else r)

/-- The body of the stock-update loop in `TransactionSerializer.create`:
`product.quantity_in_stock -= quantity; product.save()` performed on the
item's own product instance. -/
def writeItem (acc : List SProduct) (it : ValidItem) : List SProduct :=
  saveProduct acc
    { it.product with quantity_in_stock := it.product.quantity_in_stock - it.quantity }

/-- `TransactionSerializer.create` (`pos_app/serializers.py`): computes the
totals, then for each item decrements the item's own product instance's
`quantity_in_stock` and saves that instance.  Because every item carries its
own snapshot of the product row (fetched during validation, before any save),
each save writes `snapshot - quantity` for that item, not a cumulative
value. -/
def TransactionSerializer.create (db : List SProduct) (discount amount_paid : ℚ)
    (items : List ValidItem) : STransaction × List SProduct :=
  let subtotal := (items.map (fun it => (it.quantity : ℚ) * it.unit_price)).sum
  let total_amount := subtotal - discount
  let db' := items.foldl writeItem db
  ({ subtotal := subtotal, discount := discount, total_amount := total_amount,
     amount_paid := amount_paid, items := items }, db')

/-- The POST pipeline for creating a transaction: resolve the nested items,
run child validation, run object validation, then `create`. -/
def runCreate (db : List SProduct) (tx : RawTransaction) :
    Except SError (STransaction × List SProduct) :=
  match resolveItems db tx.items with
  | .error e => .error e
  | .ok fetched =>
    match validateItems fetched with
    | .error e => .error e
    | .ok valid =>
      match TransactionSerializer.validate tx.discount tx.amount_paid valid with
      | .error e => .error e
      | .ok _ => .ok (TransactionSerializer.create db tx.discount tx.amount_paid valid)

/-- The database after the POST: unchanged when validation rejected the
request (the serializer never reached `create`). -/
def runCreateDb (db : List SProduct) (tx : RawTransaction) : List SProduct :=
  match runCreate db tx with
  | .ok (_, db') => db'
  | .error _ => db

/-- `TransactionSerializer.update` (`pos_app/serializers.py`): unconditionally
raises `ValidationError`. -/
def TransactionSerializer.update (_instance : STransaction) (_validated_data : RawTransaction) :
    Except SError STransaction :=
  .error .cannotModify

/-- The PUT/PATCH pipeline for an existing transaction: a serializer error
leaves both the stored transaction and the product rows untouched. -/
def applyUpdate (db : List SProduct) (inst : STransaction) (payload : RawTransaction) :
    List SProduct × STransaction :=
  match TransactionSerializer.update inst payload with
  | .ok t => (db, t)
  | .error _ => (db, inst)

/-- The last item of a transaction whose product primary key is `pk` (the
stock write that wins when several items reference the same product). -/
def lastItemFor : List ValidItem → Nat → Option ValidItem
  | [], _ => none
  | it :: rest, pk =>
    match lastItemFor rest pk with
    | some it' => some it'
    | none => if it.product.id = pk then some it else none

/-- A concrete product row: primary key 1, retail price 5, wholesale price 4,
ten units in stock. -/
def sodaRow : SProduct :=
  { id := 1, name := "Soda", sku := "SKU1", retail_price := 5, wholesale_price := 4,
    quantity_in_stock := 10 }

/-- A concrete transaction payload whose two items both reference product 1. -/
def dupItemsTx : RawTransaction :=
  { items := [⟨1, 2, .RETAIL⟩, ⟨1, 3, .RETAIL⟩], discount := 0, amount_paid := 0 }

/-- A concrete transaction payload with a single item for product 1. -/
def singleItemTx : RawTransaction :=
  { items := [⟨1, 2, .RETAIL⟩], discount := 0, amount_paid := 0 }

/-- A concrete transaction payload requesting more units of product 1 than are
in stock. -/
def overdraftTx : RawTransaction :=
  { items := [⟨1, 11, .RETAIL⟩], discount := 0, amount_paid := 0 }

/-- The validated item produced for `singleItemTx` against `[sodaRow]`. -/
def sodaValidItem : ValidItem :=
  { product := sodaRow, quantity := 2, product_name := "Soda", product_sku := "SKU1",
    unit_price := 5, price_type := .RETAIL }

/-- The stored transaction produced for `singleItemTx` against `[sodaRow]`. -/
def singleTxResult : STransaction :=
  { subtotal := 10, discount := 0, total_amount := 10, amount_paid := 0,
    items := [sodaValidItem] }

/-- The product table after `singleItemTx` is created against `[sodaRow]`. -/
def singleTxDb : List SProduct :=
  [{ sodaRow with quantity_in_stock := 8 }]

/- ============================================================
   Store-scoped querysets: `pos_app/views.py`
   ============================================================ -/

/-- An authenticated non-superuser principal as the list views see it: such a
user always has a store and a role (`authentication/models.py` requires both
for regular users). -/
structure QUser where
  id : Nat
  store : Nat
  role_name : String
  deriving Repr, DecidableEq

/-- A `Product` row as filtered by the invoice-era views (`pos_app/views.py`):
tenant store, stock and threshold. -/
structure DProduct where
  id : Nat
  store : Nat
  stock : ℤ
  low_stock_threshold : ℤ
  deriving Repr, DecidableEq

/-- A `Category` row as filtered by the category views. -/
structure DCategory where
  id : Nat
  store : Nat
  is_active : Bool
  deriving Repr, DecidableEq

/-- An `Invoice` row as filtered by the invoice views. -/
structure DInvoice where
  id : Nat
  store : Nat
  salesperson : Nat
  created_at : ℤ
  deriving Repr, DecidableEq

/-- `ProductListCreateView.get_queryset` (`pos_app/views.py`): products of the
user's store, optionally narrowed to low stock when `?low_stock=true`. -/
def ProductListCreateView.get_queryset (u : QUser) (low_stock_param : Bool)
    (db : List DProduct) : List DProduct :=
  let queryset := db.filter (fun p => p.store == u.store)
  if low_stock_param then queryset.filter (fun p => decide (p.stock ≤ p.low_stock_threshold))
  else queryset

/-- `CategoryListCreateView.get_queryset` (`pos_app/views.py`): active
categories of the user's store. -/
def CategoryListCreateView.get_queryset (u : QUser) (db : List DCategory) : List DCategory :=
  db.filter (fun c => c.store == u.store && c.is_active)

/-- `InvoiceListCreateView.get_queryset` (`pos_app/views.py`): invoices of the
user's store; salespeople additionally see only their own; optional
date-range narrowing (an unparsable date parameter is ignored, hence
`Option ℤ`). -/
def InvoiceListCreateView.get_queryset (u : QUser) (start_date end_date : Option ℤ)
    (db : List DInvoice) : List DInvoice :=
  let queryset := db.filter (fun i => i.store == u.store)
  let queryset :=
    if u.role_name == "salesperson" then queryset.filter (fun i => i.salesperson == u.id)
    else queryset
  let queryset :=
    match start_date with
    | some s => queryset.filter (fun i => decide (s ≤ i.created_at))
    | none => queryset
  match end_date with
  | some e => queryset.filter (fun i => decide (i.created_at ≤ e))
  | none => queryset

/-- `IsSameStore.has_object_permission` (`pos_app/permissions.py`): the object
must carry a `store` attribute equal to the user's store. -/
def IsSameStore.has_object_permission (is_authenticated : Bool) (u : QUser)
    (obj_store : Option Nat) : Bool :=
  if !is_authenticated then false
  else
    match obj_store with
    | some s => s == u.store
    | none => false

/- ============================================================
   Offline bulk invoice sync (modelled from the spec)

   `BulkInvoiceSyncView.create` (`pos_app/views.py`) delegates the whole
   reconciliation to `serializer.save()` and only reads back the
   `synced`/`failed` counts; the body of `BulkInvoiceSyncSerializer` itself is
   not among the source files.  The per-record loop below is therefore
   modelled from the spec's words.
   ============================================================ -/

/-- Modelled from the spec: one line item of an offline-created invoice
record (a product reference and a quantity). -/
structure SyncItem where
  product : Nat
  quantity : ℤ
  deriving Repr, DecidableEq

/-- Modelled from the spec: one client-generated invoice record of a bulk
sync batch, identified by its client-assigned `invoice_number`. -/
structure SyncRecord where
  invoice_number : String
  items : List SyncItem
  deriving Repr, DecidableEq

/-- Modelled from the spec: the server state a batch is reconciled against —
the stored invoice numbers (unique by the `Invoice.invoice_number` column
constraint in `pos_app/models.py`) and the per-product stock. -/
structure SyncState where
  invoice_numbers : List String
  stock : Nat → ℤ

/-- Modelled from the spec: per-item validation of a record — the quantity is
positive and does not exceed the server-side stock (a record referencing
stale stock fails). -/
def validateSyncItem (st : SyncState) (it : SyncItem) : Bool :=
  decide (0 < it.quantity) && decide (it.quantity ≤ st.stock it.product)

/-- Modelled from the spec: independent validation of one record — its
invoice number must not already be stored (a duplicated record fails, which
is also what the unique column constraint enforces), and every item must be
valid. -/
def validateSyncRecord (st : SyncState) (r : SyncRecord) : Bool :=
  !(st.invoice_numbers.contains r.invoice_number) && r.items.all (validateSyncItem st)

/-- Modelled from the spec: applying one valid record atomically — store the
invoice and adjust the inventory of every referenced product. -/
def applySyncRecord (st : SyncState) (r : SyncRecord) : SyncState :=
  { invoice_numbers := r.invoice_number :: st.invoice_numbers,
    stock := fun pk =>
      st.stock pk - ((r.items.filter (fun it => it.product == pk)).map (·.quantity)).sum }

/-- The outcome of a bulk sync: the final server state and the reported
counts of synced and failed records. -/
structure SyncResult where
  state : SyncState
  synced : Nat
  failed : Nat

/-- Modelled from the spec: the reconciliation loop of
`BulkInvoiceSyncSerializer.save` — each record of the batch is validated
independently against the current server state and applied atomically;
a record that fails is counted and skipped without touching the state. -/
def processBatch (st : SyncState) : List SyncRecord → SyncResult
  | [] => { state := st, synced := 0, failed := 0 }
  | r :: rs =>
    if validateSyncRecord st r then
      let res := processBatch (applySyncRecord st r) rs
      { res with synced := res.synced + 1 }
    else
      let res := processBatch st rs
      { res with failed := res.failed + 1 }

/-- A concrete server state: invoice `INV-1` stored, five units of every
product. -/
def syncState0 : SyncState :=
  { invoice_numbers := ["INV-1"], stock := fun _ => 5 }

/-- A concrete record duplicating the stored invoice number `INV-1`. -/
def dupRecord : SyncRecord :=
  { invoice_number := "INV-1", items := [⟨1, 1⟩] }

/-- A concrete valid record. -/
def goodRecord : SyncRecord :=
  { invoice_number := "INV-2", items := [⟨1, 2⟩] }

/- ============================================================
   User creation: `authentication/models.py` (`UserManager`)
   ============================================================ -/

/-- `re.sub(r'[^a-zA-Z0-9]', '', name.lower().replace(' ', ''))` from
`UserManager._generate_username`. -/
def cleanName (name : String) : String :=
  ((name.toLower.replace " " "").data.filter (fun c => c.isAlphanum)).asString

/-- The `base` string of `UserManager._generate_username`: the cleaned name,
falling back (Python `or`, i.e. when the cleaned name is empty) to the
lowercased local part of the email. -/
def usernameBase (name email : String) : String :=
  let cleaned := cleanName name
  if cleaned.isEmpty then ((email.splitOn "@").headD "").toLower else cleaned

/-- The sequence of usernames `_generate_username` tries: first `base[:50]`,
then `f"{base}{counter}"` for `counter = 1, 2, ...` (note the untruncated
`base`; `Nat.repr` is `str` for naturals). -/
def usernameCandidate (base : String) : Nat → String
  | 0 => base.take 50
  | k + 1 => base ++ Nat.repr (k + 1)

/-- The `while ... .exists()` loop of `_generate_username`, with explicit
fuel: it returns the first candidate not among the existing usernames. -/
def generateUsernameAux (existing : List String) (base : String) : Nat → Nat → String
  | 0, k => usernameCandidate base k
  | fuel + 1, k =>
    if usernameCandidate base k ∈ existing then generateUsernameAux existing base fuel (k + 1)
    else usernameCandidate base k

/-- `UserManager._generate_username` (`authentication/models.py`) against the
set of usernames already in the database.  `existing.length + 2` steps of the
loop always suffice (proved below), so the fuelled loop computes exactly what
the unbounded Python loop computes. -/
def UserManager.generate_username (existing : List String) (name email : String) : String :=
  generateUsernameAux existing (usernameBase name email) (existing.length + 2) 0

/-- Django's `BaseUserManager.normalize_email`: lowercase the domain part
after the last `@` of the trimmed address; return malformed input as-is. -/
def normalize_email (email : String) : String :=
  let s := email.trim
  let parts := s.splitOn "@"
  if 2 ≤ parts.length then
    String.intercalate "@" parts.dropLast ++ "@" ++ (parts.getLastD "").toLower
  else s

/-- The saved user row produced by `UserManager.create_user`. -/
structure UserRecord where
  username : String
  email : String
  name : String
  store : Option Nat
  role : Option Nat
  has_usable_password : Bool
  deriving Repr, DecidableEq

/-- `UserManager.create_user` (`authentication/models.py`): raises `TypeError`
when the email or the name is missing (falsy, i.e. empty), otherwise
normalizes the email, generates a fresh username and saves the user; without
a password the account gets an unusable one. -/
def UserManager.create_user (existing : List String) (name email : String)
    (password : Option String) (store role : Option Nat) : Except String UserRecord :=
  if email.isEmpty then .error "Users must have an email address"
  else if name.isEmpty then .error "Users must have a name"
  else
    let email := normalize_email email
    let username := UserManager.generate_username existing name email
    .ok { username := username, email := email, name := name, store := store, role := role,
          has_usable_password := password.isSome }

/-- The numeric value of a decimal digit character (left inverse of
`Nat.digitChar` on digits, used to invert `Nat.repr`). -/
def digitVal (c : Char) : Nat :=
  match c with
  | '0' => 0 | '1' => 1 | '2' => 2 | '3' => 3 | '4' => 4
  | '5' => 5 | '6' => 6 | '7' => 7 | '8' => 8 | '9' => 9
  | _ => 0

/-- Read a list of decimal digit characters back as a natural number. -/
def evalDigits (l : List Char) : Nat :=
  l.foldl (fun a c => 10 * a + digitVal c) 0

/- ============================================================
   Theorems
   ============================================================ -/

/-- `findProduct` returns a row carrying the requested primary key. -/
theorem findProduct_some_id {db : List SProduct} {pk : Nat} {p : SProduct}
    (h : findProduct db pk = some p) : p.id = pk := by
  simpa using List.find?_some h

/-- Every fetched item's snapshot is literally the current row of its product. -/
theorem resolveItems_snapshot {db : List SProduct} :
    ∀ {rs : List RawItem} {fetched : List FetchedItem}, resolveItems db rs = .ok fetched →
      ∀ d ∈ fetched, findProduct db d.product.id = some d.product := by
  intro rs
  induction rs with
  | nil =>
    intro fetched h d hd
    simp only [resolveItems, Except.ok.injEq] at h
    subst h
    simp at hd
  | cons r rs ih =>
    intro fetched h d hd
    simp only [resolveItems] at h
    cases hf : findProduct db r.product with
    | none => rw [hf] at h; simp at h
    | some p =>
      rw [hf] at h
      cases hrest : resolveItems db rs with
      | error e => rw [hrest] at h; simp at h
      | ok rest =>
        rw [hrest] at h
        simp only [Except.ok.injEq] at h
        subst h
        rcases List.mem_cons.mp hd with rfl | hmem
        · have hid : p.id = r.product := findProduct_some_id hf
          simpa [hid] using hf
        · exact ih hrest d hmem

/-- What a successful `TransactionItemSerializer.validate` guarantees. -/
theorem validate_ok_inv {d : FetchedItem} {v : ValidItem}
    (h : TransactionItemSerializer.validate d = .ok v) :
    v.product = d.product ∧ v.quantity = d.quantity ∧
    0 < d.quantity ∧ d.quantity ≤ d.product.quantity_in_stock := by
  unfold TransactionItemSerializer.validate at h
  split at h
  · simp at h
  next hq =>
    split at h
    next => simp at h
    next hs =>
      simp only [Except.ok.injEq] at h
      subst h
      exact ⟨rfl, rfl, by omega, by omega⟩

/-- Every item of a successfully validated list passed item validation. -/
theorem validateItems_ok_mem :
    ∀ {ds : List FetchedItem} {vs : List ValidItem}, validateItems ds = .ok vs →
      ∀ v ∈ vs, ∃ d ∈ ds, TransactionItemSerializer.validate d = .ok v := by
  intro ds
  induction ds with
  | nil =>
    intro vs h v hv
    simp only [validateItems, Except.ok.injEq] at h
    subst h
    simp at hv
  | cons d ds ih =>
    intro vs h v hv
    simp only [validateItems] at h
    cases hva : TransactionItemSerializer.validate d with
    | error e => rw [hva] at h; simp at h
    | ok v0 =>
      rw [hva] at h
      cases hrest : validateItems ds with
      | error e => rw [hrest] at h; simp at h
      | ok vs0 =>
        rw [hrest] at h
        simp only [Except.ok.injEq] at h
        subst h
        rcases List.mem_cons.mp hv with rfl | hmem
        · exact ⟨d, List.mem_cons_self d ds, hva⟩
        · obtain ⟨d', hd', hval⟩ := ih hrest v hmem
          exact ⟨d', List.mem_cons_of_mem _ hd', hval⟩

/-- A failing item makes the whole nested-items validation fail. -/
theorem validateItems_error_of_mem :
    ∀ {ds : List FetchedItem} {d : FetchedItem} {e : SError}, d ∈ ds →
      TransactionItemSerializer.validate d = .error e →
      ∃ e', validateItems ds = .error e' := by
  intro ds
  induction ds with
  | nil => intro d e hd _; simp at hd
  | cons d0 ds ih =>
    intro d e hd hval
    rcases List.mem_cons.mp hd with rfl | hmem
    · exact ⟨e, by simp [validateItems, hval]⟩
    · cases hva : TransactionItemSerializer.validate d0 with
      | error e0 => exact ⟨e0, by simp [validateItems, hva]⟩
      | ok v0 =>
        obtain ⟨e', he'⟩ := ih hmem hval
        exact ⟨e', by simp [validateItems, hva, he']⟩

/-- `findProduct` on a nonempty table, one row at a time. -/
theorem findProduct_cons (x : SProduct) (l : List SProduct) (pk : Nat) :
    findProduct (x :: l) pk = if x.id = pk then some x else findProduct l pk := by
  by_cases h : x.id = pk
  · rw [if_pos h]
    exact List.find?_cons_of_pos _ (by simpa using h)
  · rw [if_neg h]
    exact List.find?_cons_of_neg _ (by simpa using h)

/-- Saving a row only affects lookups of that row's primary key. -/
theorem findProduct_saveProduct (db : List SProduct) (row : SProduct) (pk : Nat) :
    findProduct (saveProduct db row) pk =
      if row.id = pk then (findProduct db pk).map (fun _ => row)
      else findProduct db pk := by
  induction db with
  | nil => simp [findProduct, saveProduct]
  | cons r rs ih =>
    rw [show saveProduct (r :: rs) row = (if r.id == row.id then row else r) :: saveProduct rs row
          from rfl,
        findProduct_cons, findProduct_cons, ih]
    by_cases h1 : r.id = row.id
    · by_cases h2 : row.id = pk
      · have hr : r.id = pk := by rw [h1, h2]
        simp [h1, h2, hr]
      · have hr : ¬ r.id = pk := by rw [h1]; exact h2
        simp [h1, h2, hr]
    · by_cases h2 : row.id = pk
      · have hr : ¬ r.id = pk := fun hh => h1 (by rw [hh, h2])
        simp [h1, h2, hr]
      · by_cases h3 : r.id = pk
        · simp [h1, h2, h3, show ¬ pk = row.id from fun hh => h2 hh.symm]
        · simp [h1, h2, h3, show ¬ pk = row.id from fun hh => h2 hh.symm]

/-- A row of the saved table is an old row or the saved row. -/
theorem mem_saveProduct {db : List SProduct} {row x : SProduct}
    (h : x ∈ saveProduct db row) : x ∈ db ∨ x = row := by
  simp only [saveProduct, List.mem_map] at h
  obtain ⟨y, hy, hxy⟩ := h
  by_cases hid : y.id = row.id
  · right; rw [if_pos (by simpa using hid)] at hxy; exact hxy.symm
  · left; rw [if_neg (by simpa using hid)] at hxy; subst hxy; exact hy

/-- The row written for an item keeps the item's product primary key. -/
theorem writeItem_row_id (it : ValidItem) :
    ({ it.product with
         quantity_in_stock := it.product.quantity_in_stock - it.quantity } : SProduct).id =
      it.product.id := rfl

/-- The stock-update loop, by row: the row of `pk` ends as the snapshot of the
last item referencing `pk` minus that item's quantity; other rows keep their
value. -/
theorem foldl_writeItem_findProduct :
    ∀ (items : List ValidItem) (db : List SProduct) (pk : Nat),
      findProduct (items.foldl writeItem db) pk =
        match lastItemFor items pk with
        | some it => (findProduct db pk).map
            (fun _ => { it.product with
                          quantity_in_stock := it.product.quantity_in_stock - it.quantity })
        | none => findProduct db pk := by
  intro items
  induction items with
  | nil => intro db pk; simp [lastItemFor]
  | cons it rest ih =>
    intro db pk
    simp only [List.foldl_cons, lastItemFor]
    rw [ih]
    cases h : lastItemFor rest pk with
    | some it' =>
      rw [writeItem, findProduct_saveProduct, writeItem_row_id]
      by_cases hid : it.product.id = pk
      · rw [if_pos hid]
        cases findProduct db pk <;> rfl
      · rw [if_neg hid]
    | none =>
      rw [writeItem, findProduct_saveProduct, writeItem_row_id]
      by_cases hid : it.product.id = pk
      · rw [if_pos hid, if_pos hid]
      · rw [if_neg hid, if_neg hid]

/-- A row of the post-create table is an old row or a written snapshot. -/
theorem mem_foldl_writeItem :
    ∀ (items : List ValidItem) (db : List SProduct) (x : SProduct),
      x ∈ items.foldl writeItem db →
      x ∈ db ∨ ∃ it ∈ items,
        x = { it.product with
                quantity_in_stock := it.product.quantity_in_stock - it.quantity } := by
  intro items
  induction items with
  | nil => intro db x h; exact Or.inl h
  | cons it rest ih =>
    intro db x h
    simp only [List.foldl_cons] at h
    rcases ih _ x h with hdb | ⟨it', hit', hx⟩
    · rcases mem_saveProduct hdb with h1 | h2
      · exact Or.inl h1
      · exact Or.inr ⟨it, List.mem_cons_self it rest, h2⟩
    · exact Or.inr ⟨it', List.mem_cons_of_mem _ hit', hx⟩

/-- Inversion of a successful transaction POST. -/
theorem runCreate_ok_inv {db : List SProduct} {tx : RawTransaction} {t : STransaction}
    {db' : List SProduct} (h : runCreate db tx = .ok (t, db')) :
    ∃ fetched valid,
      resolveItems db tx.items = .ok fetched ∧
      validateItems fetched = .ok valid ∧
      TransactionSerializer.validate tx.discount tx.amount_paid valid = .ok () ∧
      t.items = valid ∧ db' = valid.foldl writeItem db := by
  unfold runCreate at h
  split at h
  next e heq => simp at h
  next fetched hres =>
    split at h
    next e heq => simp at h
    next valid hval =>
      split at h
      next e heq => simp at h
      next u hts =>
        simp only [TransactionSerializer.create, Except.ok.injEq, Prod.mk.injEq] at h
        obtain ⟨h1, h2⟩ := h
        refine ⟨fetched, valid, hres, hval, by cases u; exact hts, ?_, h2.symm⟩
        rw [← h1]

/-- The last item referencing `pk` is one of the items and references `pk`. -/
theorem lastItemFor_some_mem :
    ∀ {items : List ValidItem} {pk : Nat} {it : ValidItem},
      lastItemFor items pk = some it → it ∈ items ∧ it.product.id = pk := by
  intro items
  induction items with
  | nil => intro pk it h; simp [lastItemFor] at h
  | cons it0 rest ih =>
    intro pk it h
    simp only [lastItemFor] at h
    cases hrest : lastItemFor rest pk with
    | some it' =>
      rw [hrest] at h
      simp only [Option.some.injEq] at h
      subst h
      obtain ⟨hm, hid⟩ := ih hrest
      exact ⟨List.mem_cons_of_mem _ hm, hid⟩
    | none =>
      rw [hrest] at h
      by_cases hid : it0.product.id = pk
      · rw [if_pos hid] at h
        simp only [Option.some.injEq] at h
        subst h
        exact ⟨List.mem_cons_self it0 rest, hid⟩
      · rw [if_neg hid] at h
        simp at h

/-- **C6.** An invoice is a sale record with line items and consistent totals:
`calculate_totals` sets `subtotal` to the sum of the items' totals, `tax` to
`subtotal * store.tax_rate`, and `total` to `subtotal + tax - discount`; and
saving an invoice item sets its `total` to `quantity * price`, all in exact
decimal (here: rational) arithmetic. -/
theorem invoice_totals_consistent (inv : Invoice) (it : InvoiceItem) :
    inv.calculate_totals.subtotal = (inv.items.map (·.total)).sum ∧
    inv.calculate_totals.tax = (inv.items.map (·.total)).sum * inv.store.tax_rate ∧
    inv.calculate_totals.total =
      inv.calculate_totals.subtotal + inv.calculate_totals.tax - inv.discount ∧
    it.save.total = (it.quantity : ℚ) * it.price := by
  refine ⟨rfl, rfl, rfl, rfl⟩

/-- **C7.** Roles are drawn from exactly `salesperson`, `owner`, `manager`;
for an authenticated user, report endpoints grant access iff the user's role
name is `owner` or `manager`, and invoice-creation endpoints grant access iff
the role name is one of the three roles and the user's store is active. -/
theorem role_permissions_characterization :
    ROLE_CHOICES.map Prod.fst = ["salesperson", "owner", "manager"] ∧
    ∀ u : User, u.is_authenticated = true →
      ((CanViewReports.has_permission u = some true ↔
          ∃ r, u.role = some r ∧ (r.name = "owner" ∨ r.name = "manager")) ∧
       (CanCreateInvoice.has_permission u = some true ↔
          (∃ s, u.store = some s ∧ s.is_active = true) ∧
          ∃ r, u.role = some r ∧
            (r.name = "salesperson" ∨ r.name = "owner" ∨ r.name = "manager"))) := by
  refine ⟨rfl, ?_⟩
  rintro ⟨auth, role, store⟩ hu
  obtain rfl : auth = true := hu
  constructor
  · cases role with
    | none => simp [CanViewReports.has_permission]
    | some r => simp [CanViewReports.has_permission]
  · cases store with
    | none => cases role <;> simp [CanCreateInvoice.has_permission]
    | some s =>
      obtain ⟨rate, active⟩ := s
      cases active <;> cases role <;> simp [CanCreateInvoice.has_permission, or_assoc]

/-- Witness for C7: a concrete authenticated owner with an active store is
granted both report access and invoice creation. -/
theorem role_permissions_characterization_witness :
    (User.mk true (some ⟨"owner", "Store Owner"⟩) (some ⟨1/10, true⟩)).is_authenticated = true ∧
    (CanViewReports.has_permission
        (User.mk true (some ⟨"owner", "Store Owner"⟩) (some ⟨1/10, true⟩)) = some true ↔
      ∃ r, (User.mk true (some ⟨"owner", "Store Owner"⟩) (some ⟨1/10, true⟩)).role = some r ∧
        (r.name = "owner" ∨ r.name = "manager")) := by
  refine ⟨rfl, ?_⟩
  exact (role_permissions_characterization.2
    (User.mk true (some ⟨"owner", "Store Owner"⟩) (some ⟨1/10, true⟩)) rfl).1

/-- **C8.** Transactions are immutable after creation: any update attempt
raises a validation error and leaves the stored transaction (with all of its
items) and the product rows unchanged. -/
theorem transaction_update_rejected (db : List SProduct) (inst : STransaction)
    (payload : RawTransaction) :
    TransactionSerializer.update inst payload = .error .cannotModify ∧
    applyUpdate db inst payload = (db, inst) := by
  exact ⟨rfl, rfl⟩

/-- **C3** (counterexample). The claim "each line item decreases its
referenced product's `quantity_in_stock` by exactly that item's quantity"
fails when two items of one transaction reference the same product: starting
from ten units, items of quantity 2 and 3 leave seven units (each item's save
writes its own stale snapshot, so the last write wins), not `10 - 2 - 3 = 5`. -/
theorem stock_adjustment_counterexample :
    runCreateDb [sodaRow] dupItemsTx = [{ sodaRow with quantity_in_stock := 7 }] ∧
    sodaRow.quantity_in_stock - (2 + 3) ≠ (7 : ℤ) := by
  constructor
  · norm_num [runCreateDb, runCreate, resolveItems, findProduct, List.find?, sodaRow,
      dupItemsTx, validateItems, TransactionItemSerializer.validate,
      TransactionSerializer.validate, TransactionSerializer.create, writeItem, saveProduct]
  · norm_num [sodaRow]

/-- **C3** (amended).  For every transaction successfully created, a product
referenced by no line item keeps its stock; a referenced product's row ends at
its pre-transaction value minus the quantity of the *last* item referencing it
(so when the items reference pairwise distinct products, each product's stock
decreases by exactly its item's quantity). -/
theorem stock_adjustment_last_write (db : List SProduct) (tx : RawTransaction)
    (t : STransaction) (db' : List SProduct)
    (h : runCreate db tx = .ok (t, db')) (pk : Nat) :
    (lastItemFor t.items pk = none → findProduct db' pk = findProduct db pk) ∧
    (∀ it, lastItemFor t.items pk = some it →
      findProduct db pk = some it.product ∧
      findProduct db' pk =
        some { it.product with
                 quantity_in_stock := it.product.quantity_in_stock - it.quantity }) := by
  obtain ⟨fetched, valid, hres, hval, hts, hitems, hdb'⟩ := runCreate_ok_inv h
  subst hdb'
  rw [hitems]
  constructor
  · intro hnone
    rw [foldl_writeItem_findProduct, hnone]
  · intro it hsome
    obtain ⟨hmem, hid⟩ := lastItemFor_some_mem hsome
    obtain ⟨d, hd, hvok⟩ := validateItems_ok_mem hval it hmem
    obtain ⟨hprod, hq, hqpos, hqle⟩ := validate_ok_inv hvok
    have hsnap : findProduct db it.product.id = some it.product := by
      rw [hprod]
      exact resolveItems_snapshot hres d hd
    have hdbpk : findProduct db pk = some it.product := by rw [← hid]; exact hsnap
    refine ⟨hdbpk, ?_⟩
    rw [foldl_writeItem_findProduct, hsome, hdbpk]
    rfl

/-- Witness for the amended C3 at a concrete input: one item of quantity 2
against a ten-unit row leaves eight units. -/
theorem stock_adjustment_last_write_witness :
    runCreate [sodaRow] singleItemTx = .ok (singleTxResult, singleTxDb) ∧
    ((lastItemFor singleTxResult.items 1 = none →
        findProduct singleTxDb 1 = findProduct [sodaRow] 1) ∧
     (∀ it, lastItemFor singleTxResult.items 1 = some it →
        findProduct [sodaRow] 1 = some it.product ∧
        findProduct singleTxDb 1 =
          some { it.product with
                   quantity_in_stock := it.product.quantity_in_stock - it.quantity })) := by
  have hEq : runCreate [sodaRow] singleItemTx = .ok (singleTxResult, singleTxDb) := by
    norm_num [runCreate, resolveItems, findProduct, List.find?, sodaRow, singleItemTx,
      validateItems, TransactionItemSerializer.validate, TransactionSerializer.validate,
      TransactionSerializer.create, writeItem, saveProduct, singleTxResult, sodaValidItem,
      singleTxDb]
  exact ⟨hEq, stock_adjustment_last_write [sodaRow] singleItemTx singleTxResult singleTxDb hEq 1⟩

/-- **C4.** A record referencing stale stock is rejected: an item with a
non-positive quantity fails validation with the non-positive-quantity error,
an item requesting more than the product's current server-side stock fails
with the insufficient-stock error, and in either case the whole transaction
is rejected and the product table is unchanged. -/
theorem stale_stock_rejected :
    (∀ d : FetchedItem, d.quantity ≤ 0 →
        TransactionItemSerializer.validate d = .error .quantityNotPositive) ∧
    (∀ d : FetchedItem, 0 < d.quantity → d.product.quantity_in_stock < d.quantity →
        TransactionItemSerializer.validate d =
          .error (.insufficientStock d.product.name d.product.quantity_in_stock d.quantity)) ∧
    (∀ (db : List SProduct) (tx : RawTransaction) (fetched : List FetchedItem)
        (d : FetchedItem),
        resolveItems db tx.items = .ok fetched → d ∈ fetched →
        (d.quantity ≤ 0 ∨ d.product.quantity_in_stock < d.quantity) →
        (∃ e, runCreate db tx = .error e) ∧ runCreateDb db tx = db) := by
  refine ⟨?_, ?_, ?_⟩
  · intro d hd
    simp [TransactionItemSerializer.validate, hd]
  · intro d h1 h2
    simp [TransactionItemSerializer.validate, show ¬ d.quantity ≤ 0 by omega, h2]
  · intro db tx fetched d hres hd hbad
    have hverr : ∃ e, TransactionItemSerializer.validate d = .error e := by
      rcases hbad with hb | hb
      · exact ⟨.quantityNotPositive, by simp [TransactionItemSerializer.validate, hb]⟩
      · rcases le_or_lt d.quantity 0 with hq | hq
        · exact ⟨.quantityNotPositive, by simp [TransactionItemSerializer.validate, hq]⟩
        · exact ⟨.insufficientStock d.product.name d.product.quantity_in_stock d.quantity,
            by simp [TransactionItemSerializer.validate,
              show ¬ d.quantity ≤ 0 by omega, hb]⟩
    obtain ⟨e, hve⟩ := hverr
    obtain ⟨e', hie⟩ := validateItems_error_of_mem hd hve
    refine ⟨⟨e', ?_⟩, ?_⟩
    · simp [runCreate, hres, hie]
    · simp [runCreateDb, runCreate, hres, hie]

/-- Witness for C4: quantity 0 is rejected as non-positive, and a request for
eleven units against a ten-unit row is rejected leaving the table unchanged. -/
theorem stale_stock_rejected_witness :
    (FetchedItem.mk sodaRow 0 .RETAIL).quantity ≤ 0 ∧
    TransactionItemSerializer.validate (FetchedItem.mk sodaRow 0 .RETAIL) =
      .error .quantityNotPositive ∧
    (∃ e, runCreate [sodaRow] overdraftTx = .error e) ∧
    runCreateDb [sodaRow] overdraftTx = [sodaRow] := by
  have h1 : (FetchedItem.mk sodaRow 0 .RETAIL).quantity ≤ 0 := by norm_num
  have hres : resolveItems [sodaRow] overdraftTx.items = .ok [FetchedItem.mk sodaRow 11 .RETAIL] := by
    norm_num [resolveItems, overdraftTx, findProduct, List.find?, sodaRow]
  have hmem : (FetchedItem.mk sodaRow 11 .RETAIL) ∈ [FetchedItem.mk sodaRow 11 .RETAIL] :=
    List.mem_singleton.mpr rfl
  have hbad : (FetchedItem.mk sodaRow 11 .RETAIL).quantity ≤ 0 ∨
      (FetchedItem.mk sodaRow 11 .RETAIL).product.quantity_in_stock <
        (FetchedItem.mk sodaRow 11 .RETAIL).quantity := by
    right
    norm_num [sodaRow]
  obtain ⟨hex, hdb⟩ :=
    stale_stock_rejected.2.2 [sodaRow] overdraftTx [FetchedItem.mk sodaRow 11 .RETAIL]
      (FetchedItem.mk sodaRow 11 .RETAIL) hres hmem hbad
  exact ⟨h1, stale_stock_rejected.1 (FetchedItem.mk sodaRow 0 .RETAIL) h1, hex, hdb⟩

/-- **C9.** Stock non-negativity is preserved by transaction creation: if
every product row is non-negative and a transaction passes validation, every
row of the post-create table is still non-negative — including when several
items of the transaction reference the same product, because each item's save
writes its own validated snapshot (`snapshot - quantity ≥ 0`). -/
theorem stock_nonnegativity_preserved (db : List SProduct) (tx : RawTransaction)
    (t : STransaction) (db' : List SProduct)
    (hpos : ∀ p ∈ db, 0 ≤ p.quantity_in_stock)
    (h : runCreate db tx = .ok (t, db')) :
    ∀ p ∈ db', 0 ≤ p.quantity_in_stock := by
  obtain ⟨fetched, valid, hres, hval, hts, hitems, hdb'⟩ := runCreate_ok_inv h
  subst hdb'
  intro p hp
  rcases mem_foldl_writeItem valid db p hp with hdb | ⟨it, hit, hx⟩
  · exact hpos p hdb
  · subst hx
    obtain ⟨d, hd, hvok⟩ := validateItems_ok_mem hval it hit
    obtain ⟨hprod, hq, hqpos, hqle⟩ := validate_ok_inv hvok
    have hstock : it.product.quantity_in_stock = d.product.quantity_in_stock := by
      rw [hprod]
    simp only
    rw [hstock, hq]
    omega

/-- Witness for C9: the duplicate-items transaction against a non-negative
table yields a non-negative table. -/
theorem stock_nonnegativity_preserved_witness :
    (∀ p ∈ [sodaRow], 0 ≤ p.quantity_in_stock) ∧
    (∀ p ∈ [{ sodaRow with quantity_in_stock := 7 }], 0 ≤ p.quantity_in_stock) := by
  have hpos : ∀ p ∈ [sodaRow], 0 ≤ p.quantity_in_stock := by
    intro p hp
    rcases List.mem_singleton.mp hp with rfl
    norm_num [sodaRow]
  have hEq : runCreate [sodaRow] dupItemsTx =
      .ok ({ subtotal := 25, discount := 0, total_amount := 25, amount_paid := 0,
             items := [{ product := sodaRow, quantity := 2, product_name := "Soda",
                         product_sku := "SKU1", unit_price := 5, price_type := .RETAIL },
                       { product := sodaRow, quantity := 3, product_name := "Soda",
                         product_sku := "SKU1", unit_price := 5, price_type := .RETAIL }] },
           [{ sodaRow with quantity_in_stock := 7 }]) := by
    norm_num [runCreate, resolveItems, findProduct, List.find?, sodaRow, dupItemsTx,
      validateItems, TransactionItemSerializer.validate, TransactionSerializer.validate,
      TransactionSerializer.create, writeItem, saveProduct]
  exact ⟨hpos, stock_nonnegativity_preserved [sodaRow] dupItemsTx _ _ hpos hEq⟩

/-- **C2.** Store is the tenant boundary: every product, category or invoice a
list endpoint returns belongs to the requesting user's store; each queryset is
a function of the user's-store rows alone, so adding or modifying rows of any
other store leaves the response unchanged (two-run noninterference); and the
object-level `IsSameStore` check only admits objects of the user's store. -/
theorem store_tenant_isolation (u : QUser) (low_stock_param : Bool)
    (dbP dbP' : List DProduct) (dbC dbC' : List DCategory)
    (dbI dbI' : List DInvoice) (start_date end_date : Option ℤ)
    (auth : Bool) (obj_store : Option Nat) :
    (∀ p ∈ ProductListCreateView.get_queryset u low_stock_param dbP, p.store = u.store) ∧
    (∀ c ∈ CategoryListCreateView.get_queryset u dbC, c.store = u.store) ∧
    (∀ i ∈ InvoiceListCreateView.get_queryset u start_date end_date dbI, i.store = u.store) ∧
    (dbP.filter (fun p => p.store == u.store) = dbP'.filter (fun p => p.store == u.store) →
      ProductListCreateView.get_queryset u low_stock_param dbP =
        ProductListCreateView.get_queryset u low_stock_param dbP') ∧
    (dbC.filter (fun c => c.store == u.store && c.is_active) =
        dbC'.filter (fun c => c.store == u.store && c.is_active) →
      CategoryListCreateView.get_queryset u dbC = CategoryListCreateView.get_queryset u dbC') ∧
    (dbI.filter (fun i => i.store == u.store) = dbI'.filter (fun i => i.store == u.store) →
      InvoiceListCreateView.get_queryset u start_date end_date dbI =
        InvoiceListCreateView.get_queryset u start_date end_date dbI') ∧
    (IsSameStore.has_object_permission auth u obj_store = true → obj_store = some u.store) := by
  refine ⟨?_, ?_, ?_, ?_, ?_, ?_, ?_⟩
  · intro p hp
    simp only [ProductListCreateView.get_queryset] at hp
    split at hp <;>
      (simp only [List.mem_filter, Bool.and_eq_true, beq_iff_eq,
        decide_eq_true_eq] at hp; tauto)
  · intro c hc
    simp only [CategoryListCreateView.get_queryset, List.mem_filter, Bool.and_eq_true,
      beq_iff_eq] at hc
    tauto
  · intro i hi
    simp only [InvoiceListCreateView.get_queryset] at hi
    split at hi <;> split at hi <;> split at hi <;>
      (simp only [List.mem_filter, Bool.and_eq_true, beq_iff_eq,
        decide_eq_true_eq] at hi; tauto)
  · intro h
    simp only [ProductListCreateView.get_queryset]
    rw [h]
  · intro h
    simp only [CategoryListCreateView.get_queryset]
    rw [h]
  · intro h
    simp only [InvoiceListCreateView.get_queryset]
    rw [h]
  · intro h
    cases auth with
    | false => simp [IsSameStore.has_object_permission] at h
    | true =>
      cases obj_store with
      | none => simp [IsSameStore.has_object_permission] at h
      | some s =>
        simp only [IsSameStore.has_object_permission, Bool.not_true, Bool.false_eq_true,
          if_false, beq_iff_eq] at h
        rw [h]

/-- Witness for C2: modifying and adding rows of store 99 does not change the
product list returned to a user of store 10. -/
theorem store_tenant_isolation_witness :
    ([⟨1, 10, 5, 3⟩, ⟨2, 99, 7, 2⟩].filter (fun p : DProduct => p.store == 10) =
      [⟨1, 10, 5, 3⟩, ⟨2, 99, 0, 0⟩, ⟨3, 99, 1, 1⟩].filter (fun p : DProduct => p.store == 10)) ∧
    ProductListCreateView.get_queryset ⟨7, 10, "salesperson"⟩ false [⟨1, 10, 5, 3⟩, ⟨2, 99, 7, 2⟩] =
      ProductListCreateView.get_queryset ⟨7, 10, "salesperson"⟩ false
        [⟨1, 10, 5, 3⟩, ⟨2, 99, 0, 0⟩, ⟨3, 99, 1, 1⟩] := by
  have hf : ([⟨1, 10, 5, 3⟩, ⟨2, 99, 7, 2⟩].filter (fun p : DProduct => p.store == 10) =
      [⟨1, 10, 5, 3⟩, ⟨2, 99, 0, 0⟩, ⟨3, 99, 1, 1⟩].filter (fun p : DProduct => p.store == 10)) := by
    decide
  exact ⟨hf,
    (store_tenant_isolation ⟨7, 10, "salesperson"⟩ false
      [⟨1, 10, 5, 3⟩, ⟨2, 99, 7, 2⟩] [⟨1, 10, 5, 3⟩, ⟨2, 99, 0, 0⟩, ⟨3, 99, 1, 1⟩]
      [] [] [] [] none none true none).2.2.2.1 hf⟩

/-- Unfolding `processBatch` over a record that validates. -/
theorem processBatch_cons_true {st : SyncState} {r : SyncRecord} {rs : List SyncRecord}
    (h : validateSyncRecord st r = true) :
    processBatch st (r :: rs) =
      { processBatch (applySyncRecord st r) rs with
          synced := (processBatch (applySyncRecord st r) rs).synced + 1 } := by
  simp [processBatch, h]

/-- Unfolding `processBatch` over a record that fails validation. -/
theorem processBatch_cons_false {st : SyncState} {r : SyncRecord} {rs : List SyncRecord}
    (h : validateSyncRecord st r = false) :
    processBatch st (r :: rs) =
      { processBatch st rs with failed := (processBatch st rs).failed + 1 } := by
  simp [processBatch, h]

/-- **C1.** Bulk sync has per-record atomicity and reports partial
success/failure: the reported `synced` and `failed` counts partition the
batch, and a record that fails validation is counted as failed while leaving
the final state and every other record's outcome exactly as if the failed
record had not been in the batch (it neither undoes nor prevents the
others). -/
theorem bulk_sync_per_record_atomicity (st : SyncState) (batch : List SyncRecord) :
    ((processBatch st batch).synced + (processBatch st batch).failed = batch.length) ∧
    (∀ (pre : List SyncRecord) (r : SyncRecord) (post : List SyncRecord),
      validateSyncRecord (processBatch st pre).state r = false →
      processBatch st (pre ++ r :: post) =
        { processBatch st (pre ++ post) with
            failed := (processBatch st (pre ++ post)).failed + 1 }) := by
  constructor
  · have key : ∀ (batch : List SyncRecord) (st : SyncState),
        (processBatch st batch).synced + (processBatch st batch).failed = batch.length := by
      intro batch
      induction batch with
      | nil => intro st; simp [processBatch]
      | cons r rs ih =>
        intro st
        by_cases hv : validateSyncRecord st r = true
        · rw [processBatch_cons_true hv]
          have := ih (applySyncRecord st r)
          show (processBatch (applySyncRecord st r) rs).synced + 1 +
              (processBatch (applySyncRecord st r) rs).failed = rs.length + 1
          omega
        · have hv' : validateSyncRecord st r = false := by
            simpa using hv
          rw [processBatch_cons_false hv']
          have := ih st
          show (processBatch st rs).synced + ((processBatch st rs).failed + 1) = rs.length + 1
          omega
    exact key batch st
  · have key : ∀ (pre : List SyncRecord) (st : SyncState) (r : SyncRecord)
        (post : List SyncRecord),
        validateSyncRecord (processBatch st pre).state r = false →
        processBatch st (pre ++ r :: post) =
          { processBatch st (pre ++ post) with
              failed := (processBatch st (pre ++ post)).failed + 1 } := by
      intro pre
      induction pre with
      | nil =>
        intro st r post h
        simp only [List.nil_append]
        exact processBatch_cons_false h
      | cons p pre ih =>
        intro st r post h
        by_cases hv : validateSyncRecord st p = true
        · have h' : validateSyncRecord (processBatch (applySyncRecord st p) pre).state r
              = false := by
            rw [processBatch_cons_true hv] at h
            exact h
          simp only [List.cons_append, processBatch_cons_true hv, ih _ _ _ h']
        · have hv' : validateSyncRecord st p = false := by simpa using hv
          have h' : validateSyncRecord (processBatch st pre).state r = false := by
            rw [processBatch_cons_false hv'] at h
            exact h
          simp only [List.cons_append, processBatch_cons_false hv', ih _ _ _ h']
    intro pre r post h
    exact key pre st r post h

/-- Witness for C1: against a state already holding `INV-1`, the duplicate
record fails and the batch `[dupRecord, goodRecord]` behaves exactly like
`[goodRecord]` plus one failure. -/
theorem bulk_sync_per_record_atomicity_witness :
    validateSyncRecord (processBatch syncState0 []).state dupRecord = false ∧
    processBatch syncState0 ([] ++ dupRecord :: [goodRecord]) =
      { processBatch syncState0 ([] ++ [goodRecord]) with
          failed := (processBatch syncState0 ([] ++ [goodRecord])).failed + 1 } := by
  have hval : validateSyncRecord (processBatch syncState0 []).state dupRecord = false := by
    decide
  exact ⟨hval, (bulk_sync_per_record_atomicity syncState0 []).2 [] dupRecord [goodRecord] hval⟩

/-- **C5.** Duplicated client records are not applied twice: a record whose
`invoice_number` is already stored fails validation, so if the stored invoice
numbers are unique before a bulk sync they are unique after it. -/
theorem bulk_sync_invoice_numbers_unique (st : SyncState) (batch : List SyncRecord)
    (h : st.invoice_numbers.Nodup) :
    (processBatch st batch).state.invoice_numbers.Nodup := by
  have key : ∀ (batch : List SyncRecord) (st : SyncState), st.invoice_numbers.Nodup →
      (processBatch st batch).state.invoice_numbers.Nodup := by
    intro batch
    induction batch with
    | nil => intro st h; simpa [processBatch] using h
    | cons r rs ih =>
      intro st h
      by_cases hv : validateSyncRecord st r = true
      · rw [processBatch_cons_true hv]
        simp only
        apply ih
        have hfresh : r.invoice_number ∉ st.invoice_numbers := by
          simp only [validateSyncRecord, Bool.and_eq_true, Bool.not_eq_true'] at hv
          simpa using hv.1
        simpa [applySyncRecord, List.nodup_cons] using ⟨hfresh, h⟩
      · have hv' : validateSyncRecord st r = false := by simpa using hv
        rw [processBatch_cons_false hv']
        simp only
        exact ih st h
  exact key batch st h

/-- Witness for C5: syncing the duplicate-plus-valid batch against
`syncState0` keeps the stored invoice numbers unique. -/
theorem bulk_sync_invoice_numbers_unique_witness :
    syncState0.invoice_numbers.Nodup ∧
    (processBatch syncState0 [dupRecord, goodRecord]).state.invoice_numbers.Nodup := by
  have h : syncState0.invoice_numbers.Nodup := by decide
  exact ⟨h, bulk_sync_invoice_numbers_unique syncState0 [dupRecord, goodRecord] h⟩

/-- `digitVal` inverts `Nat.digitChar` on decimal digits. -/
theorem digitVal_digitChar {r : Nat} (h : r < 10) : digitVal (Nat.digitChar r) = r := by
  interval_cases r <;> rfl

/-- `Nat.toDigitsCore` prepends the produced digits to its accumulator. -/
theorem toDigitsCore_append (b : Nat) : ∀ (f n : Nat) (l : List Char),
    Nat.toDigitsCore b f n l = Nat.toDigitsCore b f n [] ++ l := by
  intro f
  induction f with
  | zero => intro n l; simp [Nat.toDigitsCore]
  | succ f ih =>
    intro n l
    simp only [Nat.toDigitsCore]
    by_cases h : n / b = 0
    · rw [if_pos h, if_pos h]
      simp
    · rw [if_neg h, if_neg h]
      rw [ih (n / b) (Nat.digitChar (n % b) :: l), ih (n / b) [Nat.digitChar (n % b)]]
      simp

/-- Reading digits after appending one more digit character. -/
theorem evalDigits_append (l : List Char) (c : Char) :
    evalDigits (l ++ [c]) = 10 * evalDigits l + digitVal c := by
  simp [evalDigits, List.foldl_append]

/-- `evalDigits` inverts `Nat.toDigitsCore` in base ten when the fuel covers
all digits. -/
theorem evalDigits_toDigitsCore : ∀ (f n : Nat), n < 10 ^ f →
    evalDigits (Nat.toDigitsCore 10 f n []) = n := by
  intro f
  induction f with
  | zero =>
    intro n h
    simp only [pow_zero, Nat.lt_one_iff] at h
    subst h
    rfl
  | succ f ih =>
    intro n h
    simp only [Nat.toDigitsCore]
    by_cases h0 : n / 10 = 0
    · rw [if_pos h0]
      have hn : n < 10 := by omega
      have : evalDigits [Nat.digitChar (n % 10)] = digitVal (Nat.digitChar (n % 10)) := by
        simp [evalDigits]
      rw [this, digitVal_digitChar (Nat.mod_lt _ (by norm_num))]
      omega
    · rw [if_neg h0]
      rw [toDigitsCore_append, evalDigits_append]
      have hdiv : n / 10 < 10 ^ f := by
        rw [pow_succ] at h
        omega
      rw [ih (n / 10) hdiv, digitVal_digitChar (Nat.mod_lt _ (by norm_num))]
      omega

/-- `evalDigits` inverts `Nat.repr`. -/
theorem evalDigits_repr (n : Nat) : evalDigits (Nat.repr n).data = n := by
  show evalDigits (Nat.toDigitsCore 10 (n + 1) n []) = n
  apply evalDigits_toDigitsCore
  calc n < 10 ^ n := Nat.lt_pow_self (by norm_num) n
    _ ≤ 10 ^ (n + 1) := Nat.pow_le_pow_right (by norm_num) (Nat.le_succ n)

/-- Decimal string representations of distinct naturals differ. -/
theorem repr_injective : Function.Injective Nat.repr := by
  intro m n h
  have := congrArg (fun s => evalDigits s.data) h
  simpa [evalDigits_repr] using this

/-- The numbered username candidates are pairwise distinct. -/
theorem usernameCandidate_injective (base : String) {i j : Nat}
    (h : base ++ Nat.repr (i + 1) = base ++ Nat.repr (j + 1)) : i = j := by
  have hdata : base.data ++ (Nat.repr (i + 1)).data = base.data ++ (Nat.repr (j + 1)).data := by
    have := congrArg String.data h
    simpa [String.data_append] using this
  have h2 : (Nat.repr (i + 1)).data = (Nat.repr (j + 1)).data := List.append_cancel_left hdata
  have h3 : Nat.repr (i + 1) = Nat.repr (j + 1) := String.ext h2
  have := repr_injective h3
  omega

/-- Pigeonhole: among the first `existing.length + 1` numbered candidates,
one is not an existing username. -/
theorem exists_fresh_candidate (existing : List String) (base : String) :
    ∃ i, i < existing.length + 1 ∧ base ++ Nat.repr (i + 1) ∉ existing := by
  by_contra hc
  push_neg at hc
  have hinj : Function.Injective (fun i : Nat => base ++ Nat.repr (i + 1)) := by
    intro a b hab
    exact usernameCandidate_injective base hab
  have hsub : (Finset.range (existing.length + 1)).image
      (fun i => base ++ Nat.repr (i + 1)) ⊆ existing.toFinset := by
    intro x hx
    simp only [Finset.mem_image, Finset.mem_range] at hx
    obtain ⟨i, hi, rfl⟩ := hx
    exact List.mem_toFinset.mpr (hc i hi)
  have hcard := Finset.card_le_card hsub
  rw [Finset.card_image_of_injective _ hinj, Finset.card_range] at hcard
  have := List.toFinset_card_le existing
  omega

/-- If some candidate within the fuel is fresh, the loop's result is fresh. -/
theorem generateUsernameAux_not_mem (existing : List String) (base : String) :
    ∀ (fuel k : Nat),
      (∃ j, k ≤ j ∧ j < k + fuel ∧ usernameCandidate base j ∉ existing) →
      generateUsernameAux existing base fuel k ∉ existing := by
  intro fuel
  induction fuel with
  | zero =>
    intro k hex
    exfalso
    obtain ⟨j, h1, h2, _⟩ := hex
    omega
  | succ fuel ih =>
    intro k hex
    simp only [generateUsernameAux]
    by_cases hk : usernameCandidate base k ∈ existing
    · rw [if_pos hk]
      apply ih
      obtain ⟨j, h1, h2, h3⟩ := hex
      refine ⟨j, ?_, by omega, h3⟩
      rcases Nat.eq_or_lt_of_le h1 with rfl | hlt
      · exact absurd hk h3
      · omega
    · rw [if_neg hk]
      exact hk

/-- **C10.** User creation yields a fresh username and rejects incomplete
input: for every finite set of existing usernames, `_generate_username`
returns (in finitely many loop steps) a username not in that set, and
`create_user` raises `TypeError` whenever the email or the name is missing. -/
theorem user_creation_fresh_username (existing : List String) (name email : String)
    (password : Option String) (store role : Option Nat) :
    UserManager.generate_username existing name email ∉ existing ∧
    ((email.isEmpty || name.isEmpty) = true →
      ∃ msg, UserManager.create_user existing name email password store role = .error msg) := by
  constructor
  · unfold UserManager.generate_username
    apply generateUsernameAux_not_mem
    obtain ⟨i, hi, hfresh⟩ := exists_fresh_candidate existing (usernameBase name email)
    exact ⟨i + 1, by omega, by omega, by simpa [usernameCandidate] using hfresh⟩
  · intro h
    rcases Bool.or_eq_true_iff.mp h with he | hn
    · exact ⟨"Users must have an email address", by simp [UserManager.create_user, he]⟩
    · by_cases he2 : email.isEmpty = true
      · exact ⟨"Users must have an email address", by simp [UserManager.create_user, he2]⟩
      · exact ⟨"Users must have a name", by
          simp [UserManager.create_user, he2, hn]⟩

/-- Witness for C10: creating a user with an empty email raises. -/
theorem user_creation_fresh_username_witness :
    (("" : String).isEmpty || ("Alice" : String).isEmpty) = true ∧
    (∃ msg, UserManager.create_user [] "Alice" "" none none none = .error msg) := by
  have h : (("" : String).isEmpty || ("Alice" : String).isEmpty) = true := rfl
  exact ⟨h, (user_creation_fresh_username [] "Alice" "" none none none).2 h⟩
